import Mathlib

/-!
Verification of the gosh SSH command-session server core.

The embedding below translates the connection/channel lifecycle core of the
repository (config validation, public-key authenticator, exec payload codec,
channel-request router, interactive line editor, shutdown bookkeeping) into
Lean definitions, and proves the testable properties stated in the
specification against them.

Bytes are modelled as Fin 256 (Go byte). Go strings are byte strings, so
command text is modelled as List Byte. Fallible Go functions returning
(T, error) are modelled as Except.
-/

namespace Gosh

abbrev Byte := Fin 256

/-- Truncating byte injection, as Go byte(n) = n mod 256. -/
def byteOf (n : Nat) : Byte := ⟨n % 256, Nat.mod_lt _ (by decide)⟩

/-- UTF-8 bytes of a string, as Go []byte(s): each character encoded by the
standard UTF-8 character encoding. -/
def bytesOfString (s : String) : List Byte :=
  (s.data.flatMap String.utf8EncodeChar).map (fun u => byteOf u.toNat)

/-! ## Exec Payload Codec

Source (parseExecPayload):

  func parseExecPayload(payload []byte) (string, error) {
    if len(payload) < 4 { return "", fmt.Errorf("exec payload too short") }
    length := uint32(payload[3]) | uint32(payload[2])<<8 |
              uint32(payload[1])<<16 | uint32(payload[0])<<24
    if length == 0 || int(length) > len(payload)-4 {
      return "", fmt.Errorf("invalid command length")
    }
    return string(payload[4 : 4+length]), nil
  }
-/

/-- Embedding of parseExecPayload. The length field is computed with the same
bitwise expression as the source; payload indices 0..3 are guarded by the
length check, so the getD defaults are unreachable. -/
def parseExecPayload (payload : List Byte) : Except String (List Byte) :=
  if payload.length < 4 then
    .error "exec payload too short"
  else
    let length := (payload.getD 3 0).val |||
                  (payload.getD 2 0).val <<< 8 |||
                  (payload.getD 1 0).val <<< 16 |||
                  (payload.getD 0 0).val <<< 24
    if length = 0 ∨ length > payload.length - 4 then
      .error "invalid command length"
    else
      .ok ((payload.drop 4).take length)

/-- The 4-byte big-endian value of the length field, in plain arithmetic. -/
def declaredBE (b0 b1 b2 b3 : Byte) : Nat :=
  b0.val * 2 ^ 24 + b1.val * 2 ^ 16 + b2.val * 2 ^ 8 + b3.val

/-- The declared big-endian length of a payload (0 when shorter than 4 bytes,
in which case decoding already failed on the length guard). -/
def declaredLen : List Byte → Nat
  | b0 :: b1 :: b2 :: b3 :: _ => declaredBE b0 b1 b2 b3
  | _ => 0

/-- Modelled from the spec: the repository only decodes exec payloads; the
round-trip property of §8 defines the encoder as a 4-byte big-endian length
field followed by the bytes of the command string. -/
def encodeExecPayloadSpec (cmd : List Byte) : List Byte :=
  byteOf (cmd.length / 2 ^ 24) :: byteOf (cmd.length / 2 ^ 16) ::
  byteOf (cmd.length / 2 ^ 8) :: byteOf cmd.length :: cmd

/-! ## Channel Router

Source (handleChannel): iterates over the channel's request stream; pty-req
is acknowledged; shell is acknowledged and, when a command handler is set,
writes the welcome message and spawns the line editor; exec (with a handler)
decodes the payload, rejecting the request on decode failure, and otherwise
executes the command, writes the output, acknowledges, sends the exit status
and returns (the deferred close then closes the channel); any other request
type is negatively acknowledged. Only a successful exec (or the request
stream ending) leaves the loop.
-/

/-- Channel-level request kinds received by handleChannel. -/
inductive Req
  | ptyReq
  | shell
  | exec (payload : List Byte)
  | other
deriving DecidableEq

/-- Observable actions of handleChannel, in program order. -/
inductive ChEv
  | replied (ok : Bool)
  | wroteWelcome
  | startedShell
  | executed (cmd : List Byte)
  | wroteOutput (out : List Byte)
  | sentExitStatus (status : Nat)
  | closedChannel
deriving DecidableEq

/-- Embedding of handleChannel over a finite request stream, parameterised by
the command handler's Execute (a command handler is present iff hasHandler).
The event list records replies, writes, executions and the deferred channel
close, in the order the source performs them. -/
def handleChannelL (execute : List Byte → List Byte × Nat) (hasHandler : Bool) :
    List Req → List ChEv
  | [] => [.closedChannel]
  | .ptyReq :: rs => .replied true :: handleChannelL execute hasHandler rs
  | .shell :: rs =>
      if hasHandler then
        .replied true :: .wroteWelcome :: .startedShell ::
          handleChannelL execute hasHandler rs
      else
        .replied true :: handleChannelL execute hasHandler rs
  | .exec p :: rs =>
      if hasHandler then
        match parseExecPayload p with
        | .error _ => .replied false :: handleChannelL execute hasHandler rs
        | .ok cmd =>
            [.executed cmd, .wroteOutput (execute cmd).1, .replied true,
             .sentExitStatus (execute cmd).2, .closedChannel]
      else
        .replied false :: handleChannelL execute hasHandler rs
  | .other :: rs => .replied false :: handleChannelL execute hasHandler rs

/-- The commands executed by the exec path of a channel, in order. -/
def execsOf (evs : List ChEv) : List (List Byte) :=
  evs.filterMap fun e =>
    match e with
    | .executed cmd => some cmd
    | _ => none

/-! ## Line Editor

Source (handleShell): per input byte, carriage return or line feed dispatches
the buffered command (when non-empty) to Execute and echoes line break,
output, line break, prompt, then clears the buffer, or echoes line break and
prompt when the buffer is empty; backspace or delete (0x7f, 0x08) drops the
buffer's last byte and echoes backspace-space-backspace when the buffer is
non-empty; any other byte is appended to the buffer and echoed verbatim.
-/

/-- Observable actions of the line editor loop. -/
inductive ShellEv
  | wrote (bs : List Byte)
  | executedCmd (cmd : List Byte)
deriving DecidableEq

/-- Carriage return and line feed, as written by the source. -/
def crlf : List Byte := [byteOf 13, byteOf 10]

/-- The visual erase sequence: backspace, space, backspace. -/
def eraseSeq : List Byte := [byteOf 0x08, byteOf 0x20, byteOf 0x08]

/-- Embedding of one iteration of the per-byte switch in handleShell, given
the handler's Execute, the prompt and the current command buffer. Returns the
new buffer and the actions performed. -/
def shellStep (execute : List Byte → List Byte × Nat) (prompt : List Byte)
    (buf : List Byte) (b : Byte) : List Byte × List ShellEv :=
  if b.val = 13 ∨ b.val = 10 then
    if buf.length > 0 then
      ([], [.executedCmd buf, .wrote (crlf ++ (execute buf).1 ++ crlf ++ prompt)])
    else
      (buf, [.wrote (crlf ++ prompt)])
  else if b.val = 0x7f ∨ b.val = 0x08 then
    if buf.length > 0 then
      (buf.dropLast, [.wrote eraseSeq])
    else
      (buf, [])
  else
    (buf ++ [b], [.wrote [b]])

/-- Embedding of the inner byte loop of handleShell over a chunk of input
bytes, threading the command buffer and accumulating actions. -/
def processShellBytes (execute : List Byte → List Byte × Nat)
    (prompt : List Byte) : List Byte → List Byte → List Byte × List ShellEv
  | [], buf => (buf, [])
  | b :: bs, buf =>
      let r := shellStep execute prompt buf b
      let t := processShellBytes execute prompt bs r.1
      (t.1, r.2 ++ t.2)

/-- The commands dispatched by the line editor, in order. -/
def shellExecs (evs : List ShellEv) : List (List Byte) :=
  evs.filterMap fun e =>
    match e with
    | .executedCmd cmd => some cmd
    | _ => none

/-! ## Authenticator

Source (validatePublicKey): read the authorized-keys file (failure rejects);
compute the presented key's SHA-256 fingerprint; while bytes remain, parse
one authorized-key record (a parse error rejects), compare its fingerprint
with the presented one for equality, returning a permission record carrying
the presented fingerprint at the first match; reject when no entry matches.
The file is modelled as the sequence of record-parse outcomes seen by the
loop, keys identified by their fingerprints (fingerprint comparison is the
only operation the source performs on them); a failed file read is modelled
as none.
-/

/-- One authorized-keys record as the parse loop sees it: a key identified by
its SHA-256 fingerprint, or a record at which parsing errors. -/
inductive AKRecord
  | key (fp : String)
  | malformed
deriving DecidableEq

/-- The three rejection sites of validatePublicKey. -/
inductive AuthError
  | readFailed
  | parseFailed
  | noMatch
deriving DecidableEq

/-- The permission record returned on success, carrying the fingerprint. -/
structure Permissions where
  pubkeyFp : String
deriving DecidableEq

/-- The record-scanning loop of validatePublicKey. -/
def validateLoop (presented : String) : List AKRecord → Except AuthError Permissions
  | [] => .error .noMatch
  | .malformed :: _ => .error .parseFailed
  | .key f :: rest =>
      if f = presented then .ok ⟨presented⟩ else validateLoop presented rest

/-- Embedding of validatePublicKey: file is none when the authorized-keys
file cannot be read, some records otherwise. -/
def validatePublicKey (file : Option (List AKRecord)) (presented : String) :
    Except AuthError Permissions :=
  match file with
  | none => .error .readFailed
  | some records => validateLoop presented records

/-- The fingerprints the parse loop can reach: those of the valid records
before the first malformed record (parsing stops there). -/
def parsedEntries : List AKRecord → List String
  | [] => []
  | .malformed :: _ => []
  | .key f :: rest => f :: parsedEntries rest

/-! ## Configuration validation and server construction

Source (Config.Validate, NewServer): Validate rejects an empty listen
address, and, when client authentication is enabled, an empty host-key or
authorized-keys path or a missing host-key or authorized-keys file, in that
order. NewServer returns an error when Validate fails, then may still fail
opening the log file or loading the host key; on success it installs the
authentication callbacks and returns, without binding any socket (Start
does that).
-/

/-- Embedding of the Config fields Validate and NewServer read. -/
structure Config where
  listenAddress : String
  hostKeyFile : String
  authorizedKeysFile : String
  noClientAuth : Bool
  logEnabled : Bool
  logFilePath : String
deriving DecidableEq

/-- Embedding of Config.Validate; fileStat tells whether a path stats
successfully (os.Stat without error). -/
def validateConfig (fileStat : String → Bool) (c : Config) : Except String Unit :=
  if c.listenAddress = "" then
    .error "listen address cannot be empty"
  else if c.noClientAuth = false then
    if c.hostKeyFile = "" then
      .error "host key file path cannot be empty when client auth is enabled"
    else if c.authorizedKeysFile = "" then
      .error "authorized keys file path cannot be empty when client auth is enabled"
    else if fileStat c.hostKeyFile = false then
      .error "host key file not found"
    else if fileStat c.authorizedKeysFile = false then
      .error "authorized keys file not found"
    else
      .ok ()
  else
    .ok ()

/-- Embedding of the fallible steps of NewServer in source order: Validate,
then opening the log file (when logging is enabled and a path is set), then
loading the host key (when client authentication is enabled). logOpenOk and
hostKeyOk abstract those two file operations. -/
def newServerCheck (fileStat : String → Bool) (logOpenOk hostKeyOk : Bool)
    (c : Config) : Except String Unit :=
  match validateConfig fileStat c with
  | .error e => .error ("invalid configuration: " ++ e)
  | .ok _ =>
      if c.logEnabled ∧ c.logFilePath ≠ "" ∧ logOpenOk = false then
        .error "failed to open log file"
      else if c.noClientAuth = false ∧ hostKeyOk = false then
        .error "failed to load host key"
      else
        .ok ()

/-! ## Server lifecycle bookkeeping

Source (Start, Stop, acceptConnections, handleConnection, handleChannel):
Stop closes the done channel, closes the listener, and waits on the shared
sync.WaitGroup. The WaitGroup is incremented only in Start (before spawning
acceptConnections) and in acceptConnections (before spawning the
per-connection handleConnection wrapper); the goroutines spawned with go
s.handleGlobalRequests, go s.handleChannel and go s.handleShell are not
registered with it.
-/

/-- The five goroutine spawn sites of the server. -/
inductive SpawnSite
  | acceptLoop
  | connectionSupervisor
  | globalRequestDrain
  | channelRouter
  | shellLoop
deriving DecidableEq

/-- Whether a wg.Add call precedes the spawn at each site in the source. -/
def trackedByWaitGroup : SpawnSite → Bool
  | .acceptLoop => true
  | .connectionSupervisor => true
  | .globalRequestDrain => false
  | .channelRouter => false
  | .shellLoop => false

/-- The three steps Stop performs, in source order. -/
inductive StopStep
  | signalDone
  | closeListener
  | waitCounter
deriving DecidableEq

/-- Embedding of the body of Stop. -/
def stopSequence : List StopStep := [.signalDone, .closeListener, .waitCounter]

deriving instance DecidableEq for Except

/-! ## Helper lemmas -/

/-- The value of a truncated byte. -/
theorem byteOf_val (n : Nat) : (byteOf n).val = n % 256 := rfl

/-- Bitwise or of a value shifted left by i and a value below 2 ^ i is
addition of disjoint bit fields. -/
theorem or_shift (a b i : Nat) (hb : b < 2 ^ i) :
    b ||| a <<< i = 2 ^ i * a + b := by
  rw [Nat.shiftLeft_eq, Nat.or_comm, Nat.mul_comm a (2 ^ i)]
  exact (Nat.mul_add_lt_is_or hb a).symm

/-- The source's bitwise length expression equals the big-endian value. -/
theorem lorBytes_eq (b0 b1 b2 b3 : Byte) :
    b3.val ||| b2.val <<< 8 ||| b1.val <<< 16 ||| b0.val <<< 24
      = declaredBE b0 b1 b2 b3 := by
  have h0 := b0.isLt
  have h1 := b1.isLt
  have h2 := b2.isLt
  have h3 := b3.isLt
  rw [or_shift b2.val b3.val 8 (by omega)]
  rw [or_shift b1.val _ 16 (by omega)]
  rw [or_shift b0.val _ 24 (by omega)]
  unfold declaredBE
  omega

/-- Reduction of parseExecPayload on a payload of at least 4 bytes. -/
theorem parseExecPayload_cons (b0 b1 b2 b3 : Byte) (rest : List Byte) :
    parseExecPayload (b0 :: b1 :: b2 :: b3 :: rest) =
      if declaredBE b0 b1 b2 b3 = 0 ∨ declaredBE b0 b1 b2 b3 > rest.length then
        .error "invalid command length"
      else
        .ok (rest.take (declaredBE b0 b1 b2 b3)) := by
  unfold parseExecPayload
  have hlen : ¬ ((b0 :: b1 :: b2 :: b3 :: rest).length < 4) := by
    simp only [List.length_cons]
    omega
  rw [if_neg hlen]
  simp only [List.getD_cons_succ, List.getD_cons_zero, List.length_cons,
    List.drop_succ_cons, List.drop_zero, lorBytes_eq]
  have hsub : rest.length + 1 + 1 + 1 + 1 - 4 = rest.length := by omega
  rw [hsub]

/-! ## Claim theorems -/

/-- C2: decoding an exec request payload fails exactly when the payload is
shorter than 4 bytes, or the 4-byte big-endian declared length is zero, or
the declared length exceeds the bytes remaining after the length field; and
whenever decoding fails, the channel router replies false to the exec request
and the Command Processor's Execute is not invoked for it (the router goes on
to the remaining requests). -/
theorem C2_exec_decode_failure (p : List Byte) :
    ((∃ e, parseExecPayload p = .error e) ↔
      (p.length < 4 ∨ declaredLen p = 0 ∨ p.length - 4 < declaredLen p)) ∧
    (∀ (e : String) (execute : List Byte → List Byte × Nat) (rs : List Req),
      parseExecPayload p = .error e →
      handleChannelL execute true (.exec p :: rs) =
        .replied false :: handleChannelL execute true rs) := by
  constructor
  · match p with
    | [] => exact ⟨fun _ => by simp, fun _ => ⟨_, rfl⟩⟩
    | [_] => exact ⟨fun _ => by simp, fun _ => ⟨_, rfl⟩⟩
    | [_, _] => exact ⟨fun _ => by simp, fun _ => ⟨_, rfl⟩⟩
    | [_, _, _] => exact ⟨fun _ => by simp, fun _ => ⟨_, rfl⟩⟩
    | b0 :: b1 :: b2 :: b3 :: rest =>
      rw [parseExecPayload_cons]
      have hd : declaredLen (b0 :: b1 :: b2 :: b3 :: rest) = declaredBE b0 b1 b2 b3 := rfl
      have hl : (b0 :: b1 :: b2 :: b3 :: rest).length = rest.length + 4 := by
        simp
      rw [hd, hl]
      by_cases h : declaredBE b0 b1 b2 b3 = 0 ∨ declaredBE b0 b1 b2 b3 > rest.length
      · rw [if_pos h]
        constructor
        · intro _
          right
          omega
        · intro _
          exact ⟨_, rfl⟩
      · rw [if_neg h]
        constructor
        · rintro ⟨e, he⟩
          cases he
        · intro hcond
          omega
  · intro e execute rs h
    simp only [handleChannelL, if_pos, h]

/-- C2 witness: the empty payload fails to decode and a channel receiving
only that exec request replies false and closes without executing. -/
theorem C2_exec_decode_failure_witness :
    (∃ e, parseExecPayload ([] : List Byte) = .error e) ∧
    handleChannelL (fun c => (c, 0)) true [.exec []] =
      [.replied false, .closedChannel] := by
  constructor
  · exact (C2_exec_decode_failure []).1.mpr (by decide)
  · rw [(C2_exec_decode_failure []).2 "exec payload too short"
      (fun c => (c, 0)) [] rfl]
    rfl

/-- C3 counterexample: the claim fails for the empty command string. Its
encoding declares length zero, which parseExecPayload rejects, so the
round trip does not return the empty command. -/
theorem C3_roundTrip_counterexample :
    parseExecPayload (encodeExecPayloadSpec (bytesOfString "")) ≠
      .ok (bytesOfString "") := by decide

/-- C3 (amended): for every nonempty command string (of length representable
in the 4-byte field), encoding it as a 4-byte big-endian length followed by
its bytes and decoding with parseExecPayload yields exactly the command. -/
theorem C3_roundTrip_nonempty (cmd : List Byte) (hne : cmd ≠ [])
    (hlt : cmd.length < 2 ^ 32) :
    parseExecPayload (encodeExecPayloadSpec cmd) = .ok cmd := by
  unfold encodeExecPayloadSpec
  rw [parseExecPayload_cons]
  have hL : declaredBE (byteOf (cmd.length / 2 ^ 24)) (byteOf (cmd.length / 2 ^ 16))
      (byteOf (cmd.length / 2 ^ 8)) (byteOf cmd.length) = cmd.length := by
    simp only [declaredBE, byteOf_val]
    omega
  rw [hL]
  have hne' : cmd.length ≠ 0 := fun h => hne (List.length_eq_zero.mp h)
  rw [if_neg (by omega)]
  rw [List.take_length]

/-- C3 witness: the round trip at the concrete command string ls. -/
theorem C3_roundTrip_nonempty_witness :
    parseExecPayload (encodeExecPayloadSpec (bytesOfString "ls")) =
      .ok (bytesOfString "ls") :=
  C3_roundTrip_nonempty (bytesOfString "ls") (by decide) (by decide)

/-- C10: for a payload whose first 4 bytes declare a big-endian length L with
0 < L and L at most the remaining byte count, parseExecPayload succeeds and
returns exactly the L bytes following the length field; trailing bytes beyond
them do not affect the result. -/
theorem C10_parse_success (b0 b1 b2 b3 : Byte) (rest : List Byte)
    (h0 : 0 < declaredBE b0 b1 b2 b3)
    (hle : declaredBE b0 b1 b2 b3 ≤ rest.length) :
    parseExecPayload (b0 :: b1 :: b2 :: b3 :: rest) =
      .ok (rest.take (declaredBE b0 b1 b2 b3)) ∧
    parseExecPayload (b0 :: b1 :: b2 :: b3 :: rest) =
      parseExecPayload (b0 :: b1 :: b2 :: b3 ::
        rest.take (declaredBE b0 b1 b2 b3)) := by
  rw [parseExecPayload_cons, parseExecPayload_cons]
  have htk : (rest.take (declaredBE b0 b1 b2 b3)).length = declaredBE b0 b1 b2 b3 := by
    rw [List.length_take]
    omega
  rw [if_neg (by omega), if_neg (by omega)]
  constructor
  · rfl
  · rw [List.take_take]
    simp

/-- C10 witness: a payload declaring length 2 with one trailing byte decodes
to exactly the two command bytes. -/
theorem C10_parse_success_witness :
    parseExecPayload
        [byteOf 0, byteOf 0, byteOf 0, byteOf 2, byteOf 97, byteOf 98, byteOf 99] =
      .ok [byteOf 97, byteOf 98] := by
  have h := C10_parse_success (byteOf 0) (byteOf 0) (byteOf 0) (byteOf 2)
    [byteOf 97, byteOf 98, byteOf 99] (by decide) (by decide)
  exact h.1.trans (by decide)

/-- C4 counterexample: the claim that whichever of shell or exec arrives
first drives the channel for its whole lifetime fails: on the concrete
request stream shell then exec, the router starts the shell and the later
exec request still executes its command. -/
theorem C4_firstRequest_counterexample :
    ChEv.startedShell ∈ handleChannelL (fun c => (c, 0)) true
        [.shell, .exec (encodeExecPayloadSpec (bytesOfString "ls"))] ∧
    ChEv.executed (bytesOfString "ls") ∈ handleChannelL (fun c => (c, 0)) true
        [.shell, .exec (encodeExecPayloadSpec (bytesOfString "ls"))] := by
  decide

/-- C4 (amended): a successful exec request executes its command, writes the
output, acknowledges, sends the exit status and stops processing, so no
request after it is processed and the channel closes — the exec path handles
at most one command per channel, and on every request stream at most one
command is executed by the exec path. However a prior shell request does not
make the channel exclusive: the router processes a later exec request the
same way, so the first-arriving request type does not determine the channel's
behavior for its lifetime. -/
theorem C4_exec_terminal (execute : List Byte → List Byte × Nat)
    (p cmd : List Byte) (rs : List Req)
    (h : parseExecPayload p = .ok cmd) :
    handleChannelL execute true (.exec p :: rs) =
      [.executed cmd, .wroteOutput (execute cmd).1, .replied true,
       .sentExitStatus (execute cmd).2, .closedChannel] ∧
    handleChannelL execute true (.shell :: .exec p :: rs) =
      .replied true :: .wroteWelcome :: .startedShell ::
        handleChannelL execute true (.exec p :: rs) ∧
    ∀ (hasHandler : Bool) (rs2 : List Req),
      (execsOf (handleChannelL execute hasHandler rs2)).length ≤ 1 := by
  refine ⟨by simp [handleChannelL, h], by simp [handleChannelL], ?_⟩
  intro hasHandler rs2
  induction rs2 with
  | nil => simp [handleChannelL, execsOf]
  | cons r rest ih =>
    cases r with
    | ptyReq => simpa [handleChannelL, execsOf] using ih
    | shell =>
      cases hasHandler with
      | false => simpa [handleChannelL, execsOf] using ih
      | true => simpa [handleChannelL, execsOf] using ih
    | exec q =>
      cases hasHandler with
      | false => simpa [handleChannelL, execsOf] using ih
      | true =>
        cases hq : parseExecPayload q with
        | error e => simpa [handleChannelL, execsOf, hq] using ih
        | ok c => simp [handleChannelL, execsOf, hq]
    | other => simpa [handleChannelL, execsOf] using ih

/-- C4 witness: on the concrete stream of a valid exec request followed by
another request, the router executes once and processes nothing further. -/
theorem C4_exec_terminal_witness :
    handleChannelL (fun c => (c, 0)) true
        [.exec (encodeExecPayloadSpec (bytesOfString "ls")), .other] =
      [.executed (bytesOfString "ls"), .wroteOutput (bytesOfString "ls"),
       .replied true, .sentExitStatus 0, .closedChannel] :=
  (C4_exec_terminal (fun c => (c, 0)) (encodeExecPayloadSpec (bytesOfString "ls"))
    (bytesOfString "ls") [.other] (by decide)).1

/-- C5: fed the byte stream of echo hi followed by carriage return from an
empty buffer, the line editor dispatches exactly one command, equal to
echo hi, and ends with an empty buffer; and a carriage-return or line-feed
byte arriving on an empty buffer writes a line break and the prompt without
invoking Execute. -/
theorem C5_lineEditor_dispatch (execute : List Byte → List Byte × Nat)
    (prompt : List Byte) :
    shellExecs (processShellBytes execute prompt (bytesOfString "echo hi\r") []).2
        = [bytesOfString "echo hi"] ∧
    (processShellBytes execute prompt (bytesOfString "echo hi\r") []).1 = [] ∧
    (∀ b : Byte, b.val = 13 ∨ b.val = 10 →
      processShellBytes execute prompt [b] [] =
        ([], [.wrote (crlf ++ prompt)])) := by
  refine ⟨rfl, rfl, ?_⟩
  intro b hb
  simp only [processShellBytes, shellStep, if_pos hb]
  simp

/-- C5 witness: a single carriage-return byte on an empty buffer writes a
line break and the prompt, dispatching nothing. -/
theorem C5_lineEditor_dispatch_witness :
    processShellBytes (fun c => (c, 0)) [] [byteOf 13] [] =
      ([], [.wrote (crlf ++ [])]) :=
  (C5_lineEditor_dispatch (fun c => (c, 0)) []).2.2 (byteOf 13) (by decide)

/-- C6: on a backspace or delete byte (0x7f or 0x08) the line editor drops
the last byte of a non-empty buffer and writes the three-byte erase sequence
backspace-space-backspace; on an empty buffer the byte is a no-op: the buffer
stays empty and nothing is written. -/
theorem C6_backspace (execute : List Byte → List Byte × Nat)
    (prompt : List Byte) (b : Byte) (hb : b.val = 0x7f ∨ b.val = 0x08) :
    (∀ buf : List Byte, buf ≠ [] →
      shellStep execute prompt buf b = (buf.dropLast, [.wrote eraseSeq])) ∧
    shellStep execute prompt [] b = ([], []) := by
  have hcr : ¬ (b.val = 13 ∨ b.val = 10) := by omega
  constructor
  · intro buf hbuf
    have hpos : buf.length > 0 := List.length_pos.mpr hbuf
    simp only [shellStep, if_neg hcr, if_pos hb, if_pos hpos]
  · simp only [shellStep, if_neg hcr, if_pos hb]
    simp

/-- C6 witness: backspace on the buffer abc yields ab with the erase
sequence written, and backspace on the empty buffer does nothing. -/
theorem C6_backspace_witness :
    shellStep (fun c => (c, 0)) [] (bytesOfString "abc") (byteOf 0x7f) =
      (bytesOfString "ab", [.wrote eraseSeq]) ∧
    shellStep (fun c => (c, 0)) [] [] (byteOf 0x7f) = ([], []) := by
  have h := C6_backspace (fun c => (c, 0)) [] (byteOf 0x7f) (by decide)
  exact ⟨(h.1 (bytesOfString "abc") (by decide)).trans (by decide), h.2⟩

/-- C1: over a readable trust-store file, if an entry the parse loop reaches
(a valid record before the first malformed one — parsing stops there) has the
presented key's fingerprint, validatePublicKey succeeds with a permission
record carrying that fingerprint, returning at the first match by the shape
of validateLoop; if the presented fingerprint is among none of them, it
returns an error and no permissions. -/
theorem C1_validatePublicKey (recs : List AKRecord) (fp : String) :
    (fp ∈ parsedEntries recs →
      validatePublicKey (some recs) fp = .ok ⟨fp⟩) ∧
    (fp ∉ parsedEntries recs →
      ∃ e, validatePublicKey (some recs) fp = .error e) := by
  induction recs with
  | nil =>
    exact ⟨fun h => absurd h (by simp [parsedEntries]), fun _ => ⟨.noMatch, rfl⟩⟩
  | cons r rest ih =>
    cases r with
    | malformed =>
      refine ⟨fun h => absurd h (by simp [parsedEntries]), fun _ => ⟨.parseFailed, rfl⟩⟩
    | key f =>
      by_cases hf : f = fp
      · subst hf
        refine ⟨fun _ => ?_, fun h => absurd (by simp [parsedEntries]) h⟩
        simp [validatePublicKey, validateLoop]
      · constructor
        · intro h
          have hm : fp ∈ parsedEntries rest := by
            rcases (by simpa [parsedEntries] using h) with h1 | h1
            · exact absurd h1.symm hf
            · exact h1
          have := ih.1 hm
          simpa [validatePublicKey, validateLoop, hf] using this
        · intro h
          have hm : fp ∉ parsedEntries rest := by
            intro hmem
            exact h (by simp [parsedEntries, hmem])
          obtain ⟨e, he⟩ := ih.2 hm
          exact ⟨e, by simpa [validatePublicKey, validateLoop, hf] using he⟩

/-- C1 witness: a presented fingerprint matching the second entry of a
two-entry trust store is accepted with that fingerprint; a fingerprint
matching no entry is rejected. -/
theorem C1_validatePublicKey_witness :
    validatePublicKey (some [.key "SHA256:aaa", .key "SHA256:bbb"]) "SHA256:bbb"
        = .ok ⟨"SHA256:bbb"⟩ ∧
    ∃ e, validatePublicKey (some [.key "SHA256:aaa"]) "SHA256:bbb" = .error e :=
  ⟨(C1_validatePublicKey [.key "SHA256:aaa", .key "SHA256:bbb"] "SHA256:bbb").1
      (by decide),
   (C1_validatePublicKey [.key "SHA256:aaa"] "SHA256:bbb").2 (by decide)⟩

/-- C8: when the trust-store file cannot be read, validatePublicKey fails
closed: it returns the read error and accepts no presented key. -/
theorem C8_failClosed (fp : String) :
    validatePublicKey none fp = .error .readFailed ∧
    ∀ perms : Permissions, validatePublicKey none fp ≠ .ok perms := by
  exact ⟨rfl, fun _ h => by cases h⟩

/-- C7: Config.Validate rejects a configuration exactly when the listen
address is empty, or client authentication is enabled and the host-key or
authorized-keys path is unset or the corresponding file is missing; a
configuration passing these checks is accepted, and whenever Validate fails,
NewServer fails with the wrapped validation error (so Start, which binds the
socket, is never reached on such a configuration). -/
theorem C7_validate (fileStat : String → Bool) (c : Config) :
    ((∃ e, validateConfig fileStat c = .error e) ↔
      (c.listenAddress = "" ∨
        (c.noClientAuth = false ∧
          (c.hostKeyFile = "" ∨ c.authorizedKeysFile = "" ∨
           fileStat c.hostKeyFile = false ∨ fileStat c.authorizedKeysFile = false)))) ∧
    (validateConfig fileStat c = .ok () ↔
      ¬ (c.listenAddress = "" ∨
        (c.noClientAuth = false ∧
          (c.hostKeyFile = "" ∨ c.authorizedKeysFile = "" ∨
           fileStat c.hostKeyFile = false ∨ fileStat c.authorizedKeysFile = false)))) ∧
    (∀ (logOpenOk hostKeyOk : Bool) (e : String),
      validateConfig fileStat c = .error e →
      newServerCheck fileStat logOpenOk hostKeyOk c =
        .error ("invalid configuration: " ++ e)) := by
  refine ⟨?_, ?_, ?_⟩
  · unfold validateConfig
    split_ifs with h1 h2 h3 h4 h5 h6 <;> simp_all
  · unfold validateConfig
    split_ifs with h1 h2 h3 h4 h5 h6 <;> simp_all
  · intro logOpenOk hostKeyOk e h
    unfold newServerCheck
    rw [h]

/-- C7 witness: a configuration requiring client authentication whose
trust-store file is missing is rejected by Validate and NewServer fails with
the wrapped error; the same configuration with all files present passes. -/
theorem C7_validate_witness :
    (∃ e, validateConfig (fun _ => false)
        ⟨":2222", "server_key", "authorized_keys", false, false, ""⟩ = .error e) ∧
    validateConfig (fun _ => true)
        ⟨":2222", "server_key", "authorized_keys", false, false, ""⟩ = .ok () ∧
    newServerCheck (fun _ => false) true true
        ⟨":2222", "server_key", "authorized_keys", false, false, ""⟩ =
      .error ("invalid configuration: " ++ "host key file not found") := by
  refine ⟨?_, ?_, ?_⟩
  · exact (C7_validate (fun _ => false)
      ⟨":2222", "server_key", "authorized_keys", false, false, ""⟩).1.mpr
      (by simp)
  · exact (C7_validate (fun _ => true)
      ⟨":2222", "server_key", "authorized_keys", false, false, ""⟩).2.1.mpr
      (by simp)
  · exact (C7_validate (fun _ => false)
      ⟨":2222", "server_key", "authorized_keys", false, false, ""⟩).2.2
      true true "host key file not found" (by decide)

/-- C9 counterexample: not every goroutine the server spawns is registered
with the shared counter Stop waits on: the per-channel router, the shell
loop and the global-request drain are spawned without a wg.Add call, so the
claim that Stop waits for every spawned goroutine, including each
per-channel router and shell goroutine, is false. -/
theorem C9_stop_counterexample :
    ¬ (∀ s : SpawnSite, trackedByWaitGroup s = true) := by
  intro h
  exact absurd (h .channelRouter) (by decide)

/-- C9 (amended): Stop signals the shutdown marker, closes the listener and
waits on the shared counter, in that order; the counter tracks exactly the
accept-loop goroutine and the per-connection supervisor goroutines, so Stop
waits for those but not for the per-channel router, shell-loop or
global-request-drain goroutines, which are spawned unregistered. -/
theorem C9_stop_waits_tracked :
    stopSequence = [.signalDone, .closeListener, .waitCounter] ∧
    (∀ s : SpawnSite, trackedByWaitGroup s = true ↔
      (s = .acceptLoop ∨ s = .connectionSupervisor)) := by
  refine ⟨rfl, ?_⟩
  intro s
  cases s <;> simp [trackedByWaitGroup]

end Gosh
